import Mathlib

/-!
# Verification of the PrivatBank transaction report tool

A shallow embedding of `src/main.py`: a program that fetches bank account
transactions from a paginated REST API (`get_transactions`), aggregates them
into per-day inflow/outflow totals in two currencies
(`calculate_daily_amounts`), and writes one report file per account
(`generate_report`).

Embedding choices:
* Calendar dates are embedded as `Int` day ordinals (days since an epoch):
  Python `datetime` values at midnight form a torsor over days, and
  `(end - start).days + 1` is exactly `end_ord - start_ord + 1`.
  A parsed timestamp `DATE_TIME_DAT_OD_TIM_P` ("dd.mm.yyyy HH:MM:SS") is a
  pair (day ordinal, seconds past midnight); Python `.date()` is `Prod.fst`.
* Monetary amounts (the result of `float(t["SUM"])` on a signed decimal
  string) are embedded as exact rationals `ℚ`.  The claims under study are
  about routing, sign and shape of the totals, none of which depend on
  binary floating-point rounding.
* The HTTP server is embedded as the list of page responses it returns to
  the successive requests of the pagination loop; `requests.get` consumes
  the next element.  Logging is embedded by returning the list of emitted
  log events (messages abstracted to their level).  The Python functions
  raise no exceptions on any path modelled here, so the embeddings are
  total functions.
-/

/-- A bank transaction as consumed by `main.py` (fields keep the JSON keys).
`DATE_TIME_DAT_OD_TIM_P` is the parsed timestamp: (calendar day ordinal,
time of day in seconds); `.date()` in the source corresponds to `.1`. -/
structure Transaction where
  DATE_TIME_DAT_OD_TIM_P : Int × Nat
  SUM : ℚ
  SUM_E : ℚ
  TRANTYPE : String
  PR_PR : String
  AUT_MY_NAM : String
  deriving DecidableEq, Repr

/-- The calendar day of a transaction: `datetime.strptime(...).date()`,
discarding the time of day. -/
def txDate (t : Transaction) : Int := t.DATE_TIME_DAT_OD_TIM_P.1

/-- One value of the `daily_totals` defaultdict in `calculate_daily_amounts`:
`{"money_in": 0, "money_out": 0, "money_in_UAH": 0, "money_out_UAH": 0}`. -/
structure DailyTotals where
  money_in : ℚ
  money_out : ℚ
  money_in_UAH : ℚ
  money_out_UAH : ℚ
  deriving DecidableEq, Repr

/-- The zero-initialized totals record of the defaultdict factory. -/
def zeroTotals : DailyTotals :=
  { money_in := 0, money_out := 0, money_in_UAH := 0, money_out_UAH := 0 }

/-- An insertion-ordered dictionary from dates to totals, as a Python dict:
an association list with no duplicate keys. -/
def TotalsDict : Type := List (Int × DailyTotals)

/-- The key view of the dict. -/
def dictKeys (m : List (Int × DailyTotals)) : List Int := m.map Prod.fst

/-- `daily_totals[d] = f(daily_totals[d])` under defaultdict semantics:
if the key is present its value is updated in place, otherwise the
zero-initialized default is created (at the end, Python dicts preserve
insertion order) and updated. -/
def dictUpdate (m : List (Int × DailyTotals)) (d : Int)
    (f : DailyTotals → DailyTotals) : List (Int × DailyTotals) :=
  if d ∈ dictKeys m then
    m.map (fun p => if p.1 = d then (d, f p.2) else p)
  else
    m ++ [(d, f zeroTotals)]

/-- The `TRANTYPE` branch of the transaction loop: a transaction with
direction code "C" adds `SUM` to `money_in` and `SUM_E` to `money_in_UAH`,
any other code adds them to `money_out` and `money_out_UAH`. -/
def bumpTotals (t : Transaction) (tot : DailyTotals) : DailyTotals :=
  if t.TRANTYPE = "C" then
    { tot with money_in := tot.money_in + t.SUM,
               money_in_UAH := tot.money_in_UAH + t.SUM_E }
  else
    { tot with money_out := tot.money_out + t.SUM,
               money_out_UAH := tot.money_out_UAH + t.SUM_E }

/-- The body of the transaction loop of `calculate_daily_amounts`: route the
amounts by `TRANTYPE` into the totals of the transaction's calendar day.
The confirmation flag `PR_PR` is not consulted. -/
def addTx (m : List (Int × DailyTotals)) (t : Transaction) :
    List (Int × DailyTotals) :=
  dictUpdate m (txDate t) (bumpTotals t)

/-- The gap-filling loop: `for day in (start + timedelta(n) for n in
range(day_count)): if day.date() not in daily_totals: ... = zero`.  Python's
`range` of a non-positive count is empty, which `Int.toNat` mirrors. -/
def gapFill (m : List (Int × DailyTotals)) (start : Int) (day_count : Int) :
    List (Int × DailyTotals) :=
  (List.range day_count.toNat).foldl
    (fun m (n : ℕ) =>
      if (start + (n : Int)) ∈ dictKeys m then m
      else m ++ [(start + (n : Int), zeroTotals)])
    m

/-- The order `sorted(daily_totals.items())` sorts by: lexicographic on the
pair, which on a dict with unique keys is the key order. -/
def keyLE (p q : Int × DailyTotals) : Prop := p.1 ≤ q.1

instance : DecidableRel keyLE := fun p q => inferInstanceAs (Decidable (p.1 ≤ q.1))

instance : IsTotal (Int × DailyTotals) keyLE := ⟨fun p q => Int.le_total p.1 q.1⟩

instance : IsTrans (Int × DailyTotals) keyLE := ⟨fun _ _ _ h h' => le_trans h h'⟩

/-- `calculate_daily_amounts` of `main.py`.  `start` and `end_date` are the
parsed `datetime.strptime(start_date, "%d-%m-%Y")` values as day ordinals;
`end_date` is the resolved effective end (the given value, or the current
date when the optional argument is omitted).  The output records are
(date, totals) pairs; the source additionally formats the date as an
`"%Y-%m-%d"` string, an injective, strictly monotone projection that the
claims do not depend on. -/
def calculate_daily_amounts (transactions : List Transaction)
    (start end_date : Int) : List (Int × DailyTotals) :=
  let day_count : Int := end_date - start + 1
  let daily_totals := transactions.foldl addTx []
  let daily_totals := gapFill daily_totals start day_count
  List.insertionSort keyLE daily_totals

/-- One JSON page response of the statements endpoint, as read by
`get_transactions`: `data["status"]`, `data["transactions"]`,
`data["exist_next_page"]`, `data["next_page_id"]`. -/
structure PageResponse where
  status : String
  transactions : List Transaction
  exist_next_page : Bool
  next_page_id : String
  deriving Repr

/-- A log event emitted through the `logging` module, abstracted to its
level (the message payloads are formatting glue). -/
inductive LogEvent where
  | error : LogEvent
  | info : LogEvent
  | warning : LogEvent
  deriving DecidableEq, Repr

/-- The `while True` pagination loop of `get_transactions`, consuming the
successive server responses.  Returns the accumulated transaction list, the
number of requests issued, and the emitted log events.  Each consumed page
is one request; a page with non-"SUCCESS" status stops the loop after
logging an error, a page with `exist_next_page` false stops it normally.
The `[]` case (server stops answering) is outside the modelled domain:
the real loop would block on the network. -/
def get_transactions_loop (pages : List PageResponse)
    (acc : List Transaction) (logs : List LogEvent) :
    List Transaction × Nat × List LogEvent :=
  match pages with
  | [] => (acc, 0, logs)
  | r :: rest =>
    if r.status = "SUCCESS" then
      let acc := acc ++ r.transactions.filter (fun t => t.PR_PR == "r")
      let logs := logs ++ [LogEvent.info]
      if r.exist_next_page then
        let result := get_transactions_loop rest acc logs
        (result.1, result.2.1 + 1, result.2.2)
      else
        (acc, 1, logs)
    else
      (acc, 1, logs ++ [LogEvent.error])

/-- `get_transactions` of `main.py`, over the list of page responses the
server returns to its successive requests (the `followId` cursor threading
selects those pages server-side and does not otherwise affect the loop). -/
def get_transactions (pages : List PageResponse) :
    List Transaction × Nat × List LogEvent :=
  get_transactions_loop pages [] []

/-- One report file written by `generate_report` (the file-writing
collaborator is abstracted to the name/content pair that would be written;
date strings in the name are abstracted to ordinal printing). -/
structure OutFile where
  name : String
  rows : List (Int × DailyTotals)
  deriving Repr

/-- `generate_report` of `main.py`: for each account, fetch its
transactions (`fetch` stands for the `get_transactions` call), skip the
account with a warning when the list is empty, otherwise aggregate and
write one file named from the account holder, account id, range and
format. -/
def generate_report (fetch : String → List Transaction)
    (accounts : List String) (start end_date : Int) (format : String) :
    List OutFile × List LogEvent :=
  match accounts with
  | [] => ([], [])
  | account :: rest =>
    if (fetch account).isEmpty then
      let result := generate_report fetch rest start end_date format
      (result.1, LogEvent.info :: LogEvent.warning :: result.2)
    else
      let transactions := fetch account
      let account_name := ((transactions.head?).map Transaction.AUT_MY_NAM).getD "Unknown"
      let daily_amounts := calculate_daily_amounts transactions start end_date
      let ext := if format.toLower = "csv" then "csv" else "json"
      let file_name := account_name ++ "_" ++ account ++ "_report_" ++
        toString start ++ "_" ++ toString end_date ++ "." ++ ext
      let result := generate_report fetch rest start end_date format
      ({ name := file_name, rows := daily_amounts } :: result.1,
       LogEvent.info :: LogEvent.info :: result.2)

/-! ## Specification-side characterization functions -/

/-- Reading a dict entry with the defaultdict's zero default: the value
stored at key `d`, or the zero record when `d` is absent. -/
def getTotals (m : List (Int × DailyTotals)) (d : Int) : DailyTotals :=
  match m with
  | [] => zeroTotals
  | p :: rest => if p.1 = d then p.2 else getTotals rest d

/-- Sum of the `SUM` amounts of the transactions of calendar day `d` whose
direction code is "C". -/
def sumIn : List Transaction → Int → ℚ
  | [], _ => 0
  | t :: ts, d =>
    (if txDate t = d ∧ t.TRANTYPE = "C" then t.SUM else 0) + sumIn ts d

/-- Sum of the `SUM_E` amounts of the transactions of calendar day `d` whose
direction code is "C". -/
def sumInUAH : List Transaction → Int → ℚ
  | [], _ => 0
  | t :: ts, d =>
    (if txDate t = d ∧ t.TRANTYPE = "C" then t.SUM_E else 0) + sumInUAH ts d

/-- Sum of the `SUM` amounts of the transactions of calendar day `d` whose
direction code is not "C". -/
def sumOut : List Transaction → Int → ℚ
  | [], _ => 0
  | t :: ts, d =>
    (if txDate t = d ∧ ¬t.TRANTYPE = "C" then t.SUM else 0) + sumOut ts d

/-- Sum of the `SUM_E` amounts of the transactions of calendar day `d` whose
direction code is not "C". -/
def sumOutUAH : List Transaction → Int → ℚ
  | [], _ => 0
  | t :: ts, d =>
    (if txDate t = d ∧ ¬t.TRANTYPE = "C" then t.SUM_E else 0) + sumOutUAH ts d

/-- The calendar days of the nominal inclusive range: `start + n` for
`n` in Python's `range(day_count)` (empty when `day_count ≤ 0`). -/
def rangeDays (start day_count : Int) : List Int :=
  (List.range day_count.toNat).map (fun (n : ℕ) => start + (n : Int))

/-- The concatenation, in response order, of the confirmed transactions of a
list of pages: what the pagination loop accumulates from them. -/
def confirmedOf (pages : List PageResponse) : List Transaction :=
  (pages.map (fun p => p.transactions.filter (fun t => t.PR_PR == "r"))).flatten

/-- One step of the gap-filling loop, at an already-resolved day value. -/
def fillStep (m : List (Int × DailyTotals)) (d : Int) :
    List (Int × DailyTotals) :=
  if d ∈ dictKeys m then m else m ++ [(d, zeroTotals)]

/-! ## Dictionary lemmas -/

lemma getTotals_of_not_mem {m : List (Int × DailyTotals)} {d : Int}
    (h : d ∉ dictKeys m) : getTotals m d = zeroTotals := by
  induction m with
  | nil => rfl
  | cons p rest ih =>
    simp only [dictKeys, List.map_cons, List.mem_cons, not_or] at h
    rw [getTotals, if_neg (fun hh => h.1 hh.symm)]
    exact ih h.2

lemma getTotals_append (m l : List (Int × DailyTotals)) (d : Int) :
    getTotals (m ++ l) d =
      if d ∈ dictKeys m then getTotals m d else getTotals l d := by
  induction m with
  | nil => simp [dictKeys]
  | cons p rest ih =>
    have hk : d ∈ dictKeys (p :: rest) ↔ d = p.1 ∨ d ∈ dictKeys rest := by
      simp [dictKeys]
    rw [List.cons_append, getTotals, getTotals]
    by_cases h : p.1 = d
    · rw [if_pos h, if_pos h, if_pos (hk.mpr (Or.inl h.symm))]
    · rw [if_neg h, if_neg h, ih]
      by_cases hd : d ∈ dictKeys rest
      · rw [if_pos hd, if_pos (hk.mpr (Or.inr hd))]
      · rw [if_neg hd,
          if_neg (fun hh => (hk.mp hh).elim (fun e => h e.symm) hd)]

lemma getTotals_map_ne (m : List (Int × DailyTotals)) (d x : Int)
    (f : DailyTotals → DailyTotals) (h : x ≠ d) :
    getTotals (m.map (fun p => if p.1 = d then (d, f p.2) else p)) x
      = getTotals m x := by
  induction m with
  | nil => rfl
  | cons p rest ih =>
    by_cases hp : p.1 = d
    · rw [List.map_cons, if_pos hp, getTotals, if_neg (fun hh => h hh.symm),
        getTotals, if_neg (fun hh => h (hp ▸ hh).symm ), ih]
    · rw [List.map_cons, if_neg hp]
      rw [getTotals, getTotals, ih]

lemma getTotals_map_eq (m : List (Int × DailyTotals)) (d : Int)
    (f : DailyTotals → DailyTotals) (h : d ∈ dictKeys m) :
    getTotals (m.map (fun p => if p.1 = d then (d, f p.2) else p)) d
      = f (getTotals m d) := by
  induction m with
  | nil => simp [dictKeys] at h
  | cons p rest ih =>
    by_cases hp : p.1 = d
    · rw [List.map_cons, if_pos hp, getTotals, if_pos rfl, getTotals, if_pos hp]
    · simp only [dictKeys, List.map_cons, List.mem_cons] at h
      rcases h with h | h
      · exact absurd h.symm hp
      · rw [List.map_cons, if_neg hp, getTotals, if_neg hp, getTotals, if_neg hp]
        exact ih h

lemma getTotals_dictUpdate (m : List (Int × DailyTotals)) (d x : Int)
    (f : DailyTotals → DailyTotals) :
    getTotals (dictUpdate m d f) x
      = if x = d then f (getTotals m d) else getTotals m x := by
  unfold dictUpdate
  by_cases hm : d ∈ dictKeys m
  · rw [if_pos hm]
    by_cases hx : x = d
    · subst hx
      rw [if_pos rfl, getTotals_map_eq m x f hm]
    · rw [if_neg hx, getTotals_map_ne m d x f hx]
  · rw [if_neg hm, getTotals_append]
    by_cases hx : x = d
    · subst hx
      rw [if_pos rfl, if_neg hm, getTotals, if_pos rfl,
        getTotals_of_not_mem hm]
    · rw [if_neg hx]
      by_cases hxm : x ∈ dictKeys m
      · rw [if_pos hxm]
      · rw [if_neg hxm, getTotals, if_neg (fun hh => hx hh.symm),
          getTotals, getTotals_of_not_mem hxm]

lemma dictKeys_map_upd (m : List (Int × DailyTotals)) (d : Int)
    (f : DailyTotals → DailyTotals) :
    dictKeys (m.map (fun p => if p.1 = d then (d, f p.2) else p))
      = dictKeys m := by
  induction m with
  | nil => rfl
  | cons p rest ih =>
    by_cases hp : p.1 = d
    · simp only [dictKeys, List.map_cons, if_pos hp] at *
      rw [ih]
      exact congrArg (· :: _) hp.symm
    · simp only [dictKeys, List.map_cons, if_neg hp] at *
      rw [ih]

lemma dictKeys_dictUpdate (m : List (Int × DailyTotals)) (d : Int)
    (f : DailyTotals → DailyTotals) :
    dictKeys (dictUpdate m d f)
      = if d ∈ dictKeys m then dictKeys m else dictKeys m ++ [d] := by
  unfold dictUpdate
  by_cases hm : d ∈ dictKeys m
  · rw [if_pos hm, if_pos hm, dictKeys_map_upd]
  · rw [if_neg hm, if_neg hm]
    simp [dictKeys]

lemma mem_dictKeys_dictUpdate (m : List (Int × DailyTotals)) (d x : Int)
    (f : DailyTotals → DailyTotals) :
    x ∈ dictKeys (dictUpdate m d f) ↔ x ∈ dictKeys m ∨ x = d := by
  rw [dictKeys_dictUpdate]
  by_cases hm : d ∈ dictKeys m
  · rw [if_pos hm]
    constructor
    · exact Or.inl
    · rintro (h | rfl)
      · exact h
      · exact hm
  · rw [if_neg hm]
    simp

lemma nodup_dictKeys_dictUpdate (m : List (Int × DailyTotals)) (d : Int)
    (f : DailyTotals → DailyTotals) (h : (dictKeys m).Nodup) :
    (dictKeys (dictUpdate m d f)).Nodup := by
  rw [dictKeys_dictUpdate]
  by_cases hm : d ∈ dictKeys m
  · rwa [if_pos hm]
  · rw [if_neg hm]
    refine List.Nodup.append h (List.nodup_singleton d) ?_
    intro x hx hxd
    rw [List.mem_singleton] at hxd
    exact hm (hxd ▸ hx)

/-! ## The transaction fold -/

lemma getTotals_addTx (m : List (Int × DailyTotals)) (t : Transaction)
    (d : Int) :
    getTotals (addTx m t) d
      = if d = txDate t then bumpTotals t (getTotals m d) else getTotals m d := by
  rw [addTx, getTotals_dictUpdate]
  by_cases h : d = txDate t
  · rw [if_pos h, if_pos h, h]
  · rw [if_neg h, if_neg h]

lemma getTotals_foldl_addTx (txs : List Transaction) :
    ∀ (m : List (Int × DailyTotals)) (d : Int),
      getTotals (txs.foldl addTx m) d =
        { money_in := (getTotals m d).money_in + sumIn txs d,
          money_out := (getTotals m d).money_out + sumOut txs d,
          money_in_UAH := (getTotals m d).money_in_UAH + sumInUAH txs d,
          money_out_UAH := (getTotals m d).money_out_UAH + sumOutUAH txs d } := by
  induction txs with
  | nil =>
    intro m d
    simp [sumIn, sumOut, sumInUAH, sumOutUAH]
  | cons t ts ih =>
    intro m d
    rw [List.foldl_cons, ih, getTotals_addTx]
    by_cases h : d = txDate t
    · subst h
      rw [if_pos rfl]
      by_cases hc : t.TRANTYPE = "C"
      · simp only [bumpTotals, if_pos hc, sumIn, sumOut, sumInUAH, sumOutUAH]
        simp only [DailyTotals.mk.injEq]
        refine ⟨?_, ?_, ?_, ?_⟩ <;> simp [hc] <;> ring
      · simp only [bumpTotals, if_neg hc, sumIn, sumOut, sumInUAH, sumOutUAH]
        simp only [DailyTotals.mk.injEq]
        refine ⟨?_, ?_, ?_, ?_⟩ <;> simp [hc] <;> ring
    · rw [if_neg h]
      have hne : ¬txDate t = d := fun hh => h hh.symm
      simp only [sumIn, sumOut, sumInUAH, sumOutUAH,
        if_neg (fun hh => hne (And.left hh)), zero_add]

lemma mem_dictKeys_foldl_addTx (txs : List Transaction) :
    ∀ (m : List (Int × DailyTotals)) (x : Int),
      x ∈ dictKeys (txs.foldl addTx m)
        ↔ x ∈ dictKeys m ∨ ∃ t ∈ txs, txDate t = x := by
  induction txs with
  | nil =>
    intro m x
    simp
  | cons t ts ih =>
    intro m x
    rw [List.foldl_cons, ih, addTx, mem_dictKeys_dictUpdate]
    constructor
    · rintro ((h | h) | h)
      · exact Or.inl h
      · exact Or.inr ⟨t, List.mem_cons_self t ts, h.symm⟩
      · rcases h with ⟨u, hu, hx⟩
        exact Or.inr ⟨u, List.mem_cons_of_mem t hu, hx⟩
    · rintro (h | h)
      · exact Or.inl (Or.inl h)
      · rcases h with ⟨u, hu, hx⟩
        rcases List.mem_cons.mp hu with rfl | hu
        · exact Or.inl (Or.inr hx.symm)
        · exact Or.inr ⟨u, hu, hx⟩

lemma nodup_dictKeys_foldl_addTx (txs : List Transaction) :
    ∀ (m : List (Int × DailyTotals)), (dictKeys m).Nodup →
      (dictKeys (txs.foldl addTx m)).Nodup := by
  induction txs with
  | nil => intro m h; exact h
  | cons t ts ih =>
    intro m h
    exact ih _ (nodup_dictKeys_dictUpdate _ _ _ h)

/-! ## The gap-filling loop -/

lemma dictKeys_append (m l : List (Int × DailyTotals)) :
    dictKeys (m ++ l) = dictKeys m ++ dictKeys l := by
  simp [dictKeys]

lemma rangeDays_nodup (s c : Int) : (rangeDays s c).Nodup := by
  rw [rangeDays]
  refine List.Nodup.map ?_ (List.nodup_range _)
  intro a b h
  have h' : s + (a : Int) = s + (b : Int) := h
  omega

lemma gapFill_eq_fold (m : List (Int × DailyTotals)) (s c : Int) :
    gapFill m s c = (rangeDays s c).foldl fillStep m := by
  rw [gapFill, rangeDays, List.foldl_map]
  rfl

lemma fillFold_eq (ds : List Int) :
    ds.Nodup → ∀ m, ds.foldl fillStep m
      = m ++ (ds.filter (fun d => decide (d ∉ dictKeys m))).map
          (fun d => (d, zeroTotals)) := by
  induction ds with
  | nil =>
    intro _ m
    simp
  | cons d rest ih =>
    intro hnd m
    have hd : d ∉ rest := (List.nodup_cons.mp hnd).1
    have hrest : rest.Nodup := (List.nodup_cons.mp hnd).2
    rw [List.foldl_cons]
    by_cases h : d ∈ dictKeys m
    · rw [show fillStep m d = m from by rw [fillStep, if_pos h], ih hrest m,
        List.filter_cons, if_neg (by simp [h])]
    · rw [show fillStep m d = m ++ [(d, zeroTotals)] from by
        rw [fillStep, if_neg h], ih hrest _, List.filter_cons,
        if_pos (by simp [h])]
      have hkeys : dictKeys (m ++ [(d, zeroTotals)]) = dictKeys m ++ [d] := by
        simp [dictKeys]
      have hfil : rest.filter
            (fun x => decide (x ∉ dictKeys (m ++ [(d, zeroTotals)])))
          = rest.filter (fun x => decide (x ∉ dictKeys m)) := by
        refine List.filter_congr ?_
        intro x hx
        have hxd : x ≠ d := fun e => hd (e ▸ hx)
        simp [hkeys, hxd]
      rw [hfil, List.map_cons, List.append_assoc]
      rfl

lemma getTotals_mapZero (l : List Int) (x : Int) :
    getTotals (l.map (fun d => (d, zeroTotals))) x = zeroTotals := by
  induction l with
  | nil => rfl
  | cons d rest ih =>
    rw [List.map_cons, getTotals]
    by_cases h : (d, zeroTotals).1 = x
    · rw [if_pos h]
    · rw [if_neg h, ih]

lemma getTotals_gapFill (m : List (Int × DailyTotals)) (s c x : Int) :
    getTotals (gapFill m s c) x = getTotals m x := by
  rw [gapFill_eq_fold, fillFold_eq _ (rangeDays_nodup s c) m, getTotals_append]
  by_cases h : x ∈ dictKeys m
  · rw [if_pos h]
  · rw [if_neg h, getTotals_mapZero, getTotals_of_not_mem h]

lemma dictKeys_gapFill (m : List (Int × DailyTotals)) (s c : Int) :
    dictKeys (gapFill m s c)
      = dictKeys m
        ++ (rangeDays s c).filter (fun d => decide (d ∉ dictKeys m)) := by
  rw [gapFill_eq_fold, fillFold_eq _ (rangeDays_nodup s c) m, dictKeys_append]
  congr 1
  rw [dictKeys, List.map_map]
  have h : (Prod.fst ∘ fun d : Int => (d, zeroTotals)) = fun d : Int => d := rfl
  rw [h]
  exact List.map_id _

lemma mem_dictKeys_gapFill (m : List (Int × DailyTotals)) (s c x : Int) :
    x ∈ dictKeys (gapFill m s c) ↔ x ∈ dictKeys m ∨ x ∈ rangeDays s c := by
  rw [dictKeys_gapFill]
  simp only [List.mem_append, List.mem_filter, decide_eq_true_eq]
  constructor
  · rintro (h | h)
    · exact Or.inl h
    · exact Or.inr h.1
  · rintro (h | h)
    · exact Or.inl h
    · by_cases hm : x ∈ dictKeys m
      · exact Or.inl hm
      · exact Or.inr ⟨h, hm⟩

lemma nodup_dictKeys_gapFill (m : List (Int × DailyTotals)) (s c : Int)
    (h : (dictKeys m).Nodup) : (dictKeys (gapFill m s c)).Nodup := by
  rw [dictKeys_gapFill]
  refine List.Nodup.append h ((rangeDays_nodup s c).filter _) ?_
  intro x hx hxf
  exact (by simpa using (List.mem_filter.mp hxf).2 : x ∉ dictKeys m) hx

lemma mem_rangeDays {s c x : Int} :
    x ∈ rangeDays s c ↔ ∃ n : ℕ, n < c.toNat ∧ s + (n : Int) = x := by
  rw [rangeDays]
  constructor
  · intro h
    rcases List.mem_map.mp h with ⟨n, hn, rfl⟩
    exact ⟨n, List.mem_range.mp hn, rfl⟩
  · rintro ⟨n, hn, rfl⟩
    exact List.mem_map.mpr ⟨n, List.mem_range.mpr hn, rfl⟩

lemma rangeDays_sorted (s c : Int) :
    List.Sorted (· < ·) (rangeDays s c) := by
  rw [rangeDays]
  refine List.pairwise_map.mpr ?_
  refine (List.sorted_lt_range _).imp ?_
  intro a b h
  exact add_lt_add_left (by exact_mod_cast h) s

/-! ## The sorting step and the assembled aggregator -/

lemma calculate_eq_sort (txs : List Transaction) (s e : Int) :
    calculate_daily_amounts txs s e
      = List.insertionSort keyLE (gapFill (txs.foldl addTx []) s (e - s + 1)) :=
  rfl

lemma calculate_perm (txs : List Transaction) (s e : Int) :
    List.Perm (calculate_daily_amounts txs s e)
      (gapFill (txs.foldl addTx []) s (e - s + 1)) :=
  List.perm_insertionSort keyLE _

lemma getTotals_mem_of_nodup :
    ∀ {m : List (Int × DailyTotals)}, (dictKeys m).Nodup →
      ∀ {d : Int} {tot : DailyTotals}, (d, tot) ∈ m → getTotals m d = tot := by
  intro m
  induction m with
  | nil =>
    intro _ d tot hm
    cases hm
  | cons p rest ih =>
    intro h d tot hm
    have hcons : p.1 ∉ dictKeys rest ∧ (dictKeys rest).Nodup := by
      have : dictKeys (p :: rest) = p.1 :: dictKeys rest := rfl
      rw [this] at h
      exact ⟨(List.nodup_cons.mp h).1, (List.nodup_cons.mp h).2⟩
    rcases List.mem_cons.mp hm with rfl | hm'
    · rw [getTotals, if_pos rfl]
    · have hdrest : d ∈ dictKeys rest := by
        rw [dictKeys]
        exact List.mem_map_of_mem Prod.fst hm'
      have hne : ¬p.1 = d := fun e => hcons.1 (e ▸ hdrest)
      rw [getTotals, if_neg hne]
      exact ih hcons.2 hm'

lemma nodup_dictKeys_calcPre (txs : List Transaction) (s e : Int) :
    (dictKeys (gapFill (txs.foldl addTx []) s (e - s + 1))).Nodup :=
  nodup_dictKeys_gapFill _ _ _
    (nodup_dictKeys_foldl_addTx txs [] List.nodup_nil)

lemma mem_calculate_totals {txs : List Transaction} {s e d : Int}
    {tot : DailyTotals} (h : (d, tot) ∈ calculate_daily_amounts txs s e) :
    tot = { money_in := sumIn txs d, money_out := sumOut txs d,
            money_in_UAH := sumInUAH txs d,
            money_out_UAH := sumOutUAH txs d } := by
  have hmem : (d, tot) ∈ gapFill (txs.foldl addTx []) s (e - s + 1) :=
    (calculate_perm txs s e).mem_iff.mp h
  have heq := getTotals_mem_of_nodup (nodup_dictKeys_calcPre txs s e) hmem
  rw [getTotals_gapFill, getTotals_foldl_addTx] at heq
  rw [← heq]
  simp [getTotals, zeroTotals]

lemma keys_calculate_perm (txs : List Transaction) (s e : Int) :
    List.Perm ((calculate_daily_amounts txs s e).map Prod.fst)
      (dictKeys (gapFill (txs.foldl addTx []) s (e - s + 1))) :=
  (calculate_perm txs s e).map Prod.fst

lemma keys_calculate_nodup (txs : List Transaction) (s e : Int) :
    ((calculate_daily_amounts txs s e).map Prod.fst).Nodup :=
  (keys_calculate_perm txs s e).nodup_iff.mpr (nodup_dictKeys_calcPre txs s e)

lemma keys_calculate_sorted (txs : List Transaction) (s e : Int) :
    List.Sorted (· < ·) ((calculate_daily_amounts txs s e).map Prod.fst) := by
  have hle : ((calculate_daily_amounts txs s e).map Prod.fst).Pairwise (· ≤ ·) :=
    List.pairwise_map.mpr
      ((List.sorted_insertionSort keyLE _).imp (fun h => h))
  have hne : ((calculate_daily_amounts txs s e).map Prod.fst).Pairwise (· ≠ ·) :=
    keys_calculate_nodup txs s e
  exact (hle.and hne).imp (fun h => lt_of_le_of_ne h.1 h.2)

lemma mem_keys_calculate (txs : List Transaction) (s e x : Int) :
    x ∈ (calculate_daily_amounts txs s e).map Prod.fst
      ↔ (∃ t ∈ txs, txDate t = x) ∨ x ∈ rangeDays s (e - s + 1) := by
  rw [(keys_calculate_perm txs s e).mem_iff, mem_dictKeys_gapFill,
    mem_dictKeys_foldl_addTx]
  simp [dictKeys]

/-! ## The pagination loop -/

lemma confirmedOf_append (a b : List PageResponse) :
    confirmedOf (a ++ b) = confirmedOf a ++ confirmedOf b := by
  simp [confirmedOf]

lemma confirmedOf_single (p : PageResponse) :
    confirmedOf [p] = p.transactions.filter (fun t => t.PR_PR == "r") := by
  simp [confirmedOf]

lemma get_transactions_loop_success_seg (good : List PageResponse)
    (h : ∀ p ∈ good, p.status = "SUCCESS" ∧ p.exist_next_page = true) :
    ∀ (rest : List PageResponse) (acc : List Transaction)
      (logs : List LogEvent),
      get_transactions_loop (good ++ rest) acc logs
        = ((get_transactions_loop rest (acc ++ confirmedOf good)
              (logs ++ List.replicate good.length LogEvent.info)).1,
           (get_transactions_loop rest (acc ++ confirmedOf good)
              (logs ++ List.replicate good.length LogEvent.info)).2.1
             + good.length,
           (get_transactions_loop rest (acc ++ confirmedOf good)
              (logs ++ List.replicate good.length LogEvent.info)).2.2) := by
  induction good with
  | nil =>
    intro rest acc logs
    simp [confirmedOf]
  | cons p good' ih =>
    intro rest acc logs
    have hp := h p (List.mem_cons_self p good')
    have hgood' : ∀ q ∈ good', q.status = "SUCCESS" ∧ q.exist_next_page = true :=
      fun q hq => h q (List.mem_cons_of_mem p hq)
    rw [List.cons_append, get_transactions_loop, if_pos hp.1, if_pos hp.2,
      ih hgood' rest]
    have hacc : acc ++ p.transactions.filter (fun t => t.PR_PR == "r")
        ++ confirmedOf good' = acc ++ confirmedOf (p :: good') := by
      rw [show (p :: good') = [p] ++ good' from rfl, confirmedOf_append,
        confirmedOf_single, List.append_assoc]
    have hlogs : logs ++ [LogEvent.info]
        ++ List.replicate good'.length LogEvent.info
        = logs ++ List.replicate (p :: good').length LogEvent.info := by
      rw [List.length_cons, List.replicate_succ, List.append_assoc]
      rfl
    rw [hacc, hlogs]
    simp only [List.length_cons, Nat.add_assoc]

lemma get_transactions_loop_confirmed (pages : List PageResponse) :
    ∀ (acc : List Transaction) (logs : List LogEvent),
      (∀ t ∈ acc, t.PR_PR = "r") →
      ∀ t ∈ (get_transactions_loop pages acc logs).1, t.PR_PR = "r" := by
  induction pages with
  | nil =>
    intro acc logs h
    exact h
  | cons r rest ih =>
    intro acc logs h t ht
    rw [get_transactions_loop] at ht
    by_cases hs : r.status = "SUCCESS"
    · rw [if_pos hs] at ht
      have hext : ∀ u ∈ acc ++ r.transactions.filter (fun t => t.PR_PR == "r"),
          u.PR_PR = "r" := by
        intro u hu
        rcases List.mem_append.mp hu with hu | hu
        · exact h u hu
        · have := (List.mem_filter.mp hu).2
          simpa using this
      by_cases hn : r.exist_next_page = true
      · rw [if_pos hn] at ht
        exact ih _ _ hext t ht
      · rw [if_neg hn] at ht
        exact hext t ht
    · rw [if_neg hs] at ht
      exact h t ht

lemma get_transactions_success_run (good : List PageResponse)
    (last : PageResponse) (junk : List PageResponse)
    (hgood : ∀ p ∈ good, p.status = "SUCCESS" ∧ p.exist_next_page = true)
    (hstat : last.status = "SUCCESS") (hnext : last.exist_next_page = false) :
    get_transactions (good ++ last :: junk)
      = (confirmedOf (good ++ [last]), good.length + 1,
         List.replicate (good.length + 1) LogEvent.info) := by
  rw [get_transactions,
    get_transactions_loop_success_seg good hgood (last :: junk) [] [],
    get_transactions_loop, if_pos hstat,
    if_neg (by rw [hnext]; exact Bool.false_ne_true)]
  rw [confirmedOf_append, confirmedOf_single, List.replicate_succ']
  simp [Nat.add_comm]

lemma get_transactions_failure_run (good : List PageResponse)
    (bad : PageResponse) (junk : List PageResponse)
    (hgood : ∀ p ∈ good, p.status = "SUCCESS" ∧ p.exist_next_page = true)
    (hbad : ¬bad.status = "SUCCESS") :
    get_transactions (good ++ bad :: junk)
      = (confirmedOf good, good.length + 1,
         List.replicate good.length LogEvent.info ++ [LogEvent.error]) := by
  rw [get_transactions,
    get_transactions_loop_success_seg good hgood (bad :: junk) [] [],
    get_transactions_loop, if_neg hbad]
  simp [Nat.add_comm]

lemma mem_confirmedOf {pages : List PageResponse} {t : Transaction}
    {p : PageResponse} (hp : p ∈ pages) (ht : t ∈ p.transactions)
    (hr : t.PR_PR = "r") : t ∈ confirmedOf pages := by
  rw [confirmedOf]
  refine List.mem_flatten.mpr ?_
  refine ⟨p.transactions.filter (fun t => t.PR_PR == "r"),
    List.mem_map_of_mem _ hp, ?_⟩
  exact List.mem_filter.mpr ⟨ht, by simp [hr]⟩

lemma sumIn_nonneg (txs : List Transaction) (d : Int)
    (h : ∀ t ∈ txs, 0 ≤ t.SUM) : 0 ≤ sumIn txs d := by
  induction txs with
  | nil => exact le_refl 0
  | cons t ts ih =>
    rw [sumIn]
    refine add_nonneg ?_ (ih (fun u hu => h u (List.mem_cons_of_mem t hu)))
    by_cases hc : txDate t = d ∧ t.TRANTYPE = "C"
    · rw [if_pos hc]
      exact h t (List.mem_cons_self t ts)
    · rw [if_neg hc]

lemma sumInUAH_nonneg (txs : List Transaction) (d : Int)
    (h : ∀ t ∈ txs, 0 ≤ t.SUM_E) : 0 ≤ sumInUAH txs d := by
  induction txs with
  | nil => exact le_refl 0
  | cons t ts ih =>
    rw [sumInUAH]
    refine add_nonneg ?_ (ih (fun u hu => h u (List.mem_cons_of_mem t hu)))
    by_cases hc : txDate t = d ∧ t.TRANTYPE = "C"
    · rw [if_pos hc]
      exact h t (List.mem_cons_self t ts)
    · rw [if_neg hc]

lemma sumOut_nonneg (txs : List Transaction) (d : Int)
    (h : ∀ t ∈ txs, 0 ≤ t.SUM) : 0 ≤ sumOut txs d := by
  induction txs with
  | nil => exact le_refl 0
  | cons t ts ih =>
    rw [sumOut]
    refine add_nonneg ?_ (ih (fun u hu => h u (List.mem_cons_of_mem t hu)))
    by_cases hc : txDate t = d ∧ ¬t.TRANTYPE = "C"
    · rw [if_pos hc]
      exact h t (List.mem_cons_self t ts)
    · rw [if_neg hc]

lemma sumOutUAH_nonneg (txs : List Transaction) (d : Int)
    (h : ∀ t ∈ txs, 0 ≤ t.SUM_E) : 0 ≤ sumOutUAH txs d := by
  induction txs with
  | nil => exact le_refl 0
  | cons t ts ih =>
    rw [sumOutUAH]
    refine add_nonneg ?_ (ih (fun u hu => h u (List.mem_cons_of_mem t hu)))
    by_cases hc : txDate t = d ∧ ¬t.TRANTYPE = "C"
    · rw [if_pos hc]
      exact h t (List.mem_cons_self t ts)
    · rw [if_neg hc]

lemma rangeDays_length (s c : Int) : (rangeDays s c).length = c.toNat := by
  simp [rangeDays]

lemma rangeDays_of_nonpos {s c : Int} (h : c ≤ 0) : rangeDays s c = [] := by
  rw [rangeDays, Int.toNat_of_nonpos h]
  rfl

lemma mem_rangeDays_of_between {s e x : Int} (h1 : s ≤ x) (h2 : x ≤ e) :
    x ∈ rangeDays s (e - s + 1) := by
  refine mem_rangeDays.mpr ⟨(x - s).toNat, by omega, by omega⟩

/-! ## Claim theorems -/

/-- C1, as stated, is false: for the valid one-day range [100, 100] and a
single transaction dated on day 105 (outside the range), the output of
calculate_daily_amounts has two records, not the inclusive day count 1:
transaction days outside the nominal range also become output records. -/
theorem C1_counterexample :
    (100 : Int) ≤ 100 ∧
    (calculate_daily_amounts
        [{ DATE_TIME_DAT_OD_TIM_P := (105, 0), SUM := 7, SUM_E := 7,
           TRANTYPE := "C", PR_PR := "r", AUT_MY_NAM := "A" }] 100 100).length
      ≠ ((100 : Int) - 100 + 1).toNat := by
  refine ⟨le_refl _, ?_⟩
  decide

/-- C1 (amended): for every valid inclusive range with end_date >= start and
every transaction list all of whose calendar days lie inside the range, the
date sequence of calculate_daily_amounts is exactly the ascending list of the
range's days — so its length is the inclusive day count, each day of the
range appears exactly once with no duplicates and no gaps, and the output is
sorted ascending by date. -/
theorem C1_range_exact (txs : List Transaction) (s e : Int) (h1 : s ≤ e)
    (h2 : ∀ t ∈ txs, s ≤ txDate t ∧ txDate t ≤ e) :
    (calculate_daily_amounts txs s e).map Prod.fst = rangeDays s (e - s + 1)
    ∧ (calculate_daily_amounts txs s e).length = (e - s + 1).toNat := by
  have hsub : ∀ x ∈ dictKeys (txs.foldl addTx []),
      x ∈ rangeDays s (e - s + 1) := by
    intro x hx
    rcases (mem_dictKeys_foldl_addTx txs [] x).mp hx with h | h
    · simp [dictKeys] at h
    · rcases h with ⟨t, ht, rfl⟩
      exact mem_rangeDays_of_between (h2 t ht).1 (h2 t ht).2
  have hperm2 : List.Perm
      (dictKeys (gapFill (txs.foldl addTx []) s (e - s + 1)))
      (rangeDays s (e - s + 1)) := by
    refine List.perm_of_nodup_nodup_toFinset_eq
      (nodup_dictKeys_calcPre txs s e) (rangeDays_nodup _ _) ?_
    ext x
    simp only [List.mem_toFinset]
    rw [mem_dictKeys_gapFill]
    constructor
    · rintro (h | h)
      · exact hsub x h
      · exact h
    · exact Or.inr
  have hperm : List.Perm ((calculate_daily_amounts txs s e).map Prod.fst)
      (rangeDays s (e - s + 1)) :=
    (keys_calculate_perm txs s e).trans hperm2
  haveI : IsAntisymm Int (· < ·) :=
    ⟨fun a b h h' => absurd (h.trans h') (lt_irrefl a)⟩
  have heq : (calculate_daily_amounts txs s e).map Prod.fst
      = rangeDays s (e - s + 1) :=
    List.eq_of_perm_of_sorted hperm (keys_calculate_sorted txs s e)
      (rangeDays_sorted _ _)
  refine ⟨heq, ?_⟩
  have := congrArg List.length heq
  rw [List.length_map, rangeDays_length] at this
  exact this

/-- Witness for C1_range_exact: a concrete one-transaction list inside the
three-day range [100, 102]. -/
theorem C1_range_exact_witness :
    (calculate_daily_amounts
        [{ DATE_TIME_DAT_OD_TIM_P := (101, 3600), SUM := 5, SUM_E := 135,
           TRANTYPE := "C", PR_PR := "r", AUT_MY_NAM := "A" }] 100 102).map
        Prod.fst = rangeDays 100 ((102 : Int) - 100 + 1)
    ∧ (calculate_daily_amounts
        [{ DATE_TIME_DAT_OD_TIM_P := (101, 3600), SUM := 5, SUM_E := 135,
           TRANTYPE := "C", PR_PR := "r", AUT_MY_NAM := "A" }] 100 102).length
      = ((102 : Int) - 100 + 1).toNat :=
  C1_range_exact _ 100 102 (by norm_num)
    (by
      intro t ht
      rcases List.mem_singleton.mp ht with rfl
      exact ⟨by norm_num [txDate], by norm_num [txDate]⟩)

/-- C2: in every output record of calculate_daily_amounts, money_in and
money_in_UAH are exactly the sums of SUM resp. SUM_E over the transactions of
that calendar day (time of day discarded) whose direction code is "C", and
money_out / money_out_UAH sum exactly the transactions of that day with any
other direction code — so a "C" transaction is added only to the inflow
fields of its day and every other transaction only to the outflow fields. -/
theorem C2_direction_routing (txs : List Transaction) (s e d : Int)
    (tot : DailyTotals) (h : (d, tot) ∈ calculate_daily_amounts txs s e) :
    tot.money_in = sumIn txs d ∧ tot.money_in_UAH = sumInUAH txs d ∧
    tot.money_out = sumOut txs d ∧ tot.money_out_UAH = sumOutUAH txs d := by
  rw [mem_calculate_totals h]
  exact ⟨rfl, rfl, rfl, rfl⟩

/-- Witness for C2_direction_routing: the spec's two-transaction scenario
(a confirmed credit of 100/2700 on day 100 and a debit of 200/5400 on
day 101), looking at day 100's record. -/
theorem C2_direction_routing_witness :
    (DailyTotals.mk 100 0 2700 0).money_in
      = sumIn
        [{ DATE_TIME_DAT_OD_TIM_P := (100, 43200), SUM := 100, SUM_E := 2700,
           TRANTYPE := "C", PR_PR := "r", AUT_MY_NAM := "Acme" },
         { DATE_TIME_DAT_OD_TIM_P := (101, 43200), SUM := 200, SUM_E := 5400,
           TRANTYPE := "D", PR_PR := "r", AUT_MY_NAM := "Acme" }] 100 ∧
    (DailyTotals.mk 100 0 2700 0).money_in_UAH
      = sumInUAH
        [{ DATE_TIME_DAT_OD_TIM_P := (100, 43200), SUM := 100, SUM_E := 2700,
           TRANTYPE := "C", PR_PR := "r", AUT_MY_NAM := "Acme" },
         { DATE_TIME_DAT_OD_TIM_P := (101, 43200), SUM := 200, SUM_E := 5400,
           TRANTYPE := "D", PR_PR := "r", AUT_MY_NAM := "Acme" }] 100 ∧
    (DailyTotals.mk 100 0 2700 0).money_out
      = sumOut
        [{ DATE_TIME_DAT_OD_TIM_P := (100, 43200), SUM := 100, SUM_E := 2700,
           TRANTYPE := "C", PR_PR := "r", AUT_MY_NAM := "Acme" },
         { DATE_TIME_DAT_OD_TIM_P := (101, 43200), SUM := 200, SUM_E := 5400,
           TRANTYPE := "D", PR_PR := "r", AUT_MY_NAM := "Acme" }] 100 ∧
    (DailyTotals.mk 100 0 2700 0).money_out_UAH
      = sumOutUAH
        [{ DATE_TIME_DAT_OD_TIM_P := (100, 43200), SUM := 100, SUM_E := 2700,
           TRANTYPE := "C", PR_PR := "r", AUT_MY_NAM := "Acme" },
         { DATE_TIME_DAT_OD_TIM_P := (101, 43200), SUM := 200, SUM_E := 5400,
           TRANTYPE := "D", PR_PR := "r", AUT_MY_NAM := "Acme" }] 100 :=
  C2_direction_routing _ 100 101 100 (DailyTotals.mk 100 0 2700 0)
    (by
      simp [calculate_daily_amounts, gapFill, addTx, dictUpdate, dictKeys,
        txDate, zeroTotals, bumpTotals, keyLE, List.insertionSort,
        List.orderedInsert, List.range_succ])

/-- C6, as stated, is false: SUM is a signed amount, and a "C" transaction
with SUM = -100 and SUM_E = -50 on day 100 over the one-day range [100, 100]
produces a record whose money_in and money_in_UAH are negative. -/
theorem C6_counterexample :
    ¬ ∀ p ∈ calculate_daily_amounts
        [{ DATE_TIME_DAT_OD_TIM_P := (100, 0), SUM := -100, SUM_E := -50,
           TRANTYPE := "C", PR_PR := "r", AUT_MY_NAM := "A" }] 100 100,
      0 ≤ p.2.money_in ∧ 0 ≤ p.2.money_out ∧ 0 ≤ p.2.money_in_UAH ∧
        0 ≤ p.2.money_out_UAH := by
  intro h
  have hm : ((100 : Int), DailyTotals.mk (-100) 0 (-50) 0)
      ∈ calculate_daily_amounts
        [{ DATE_TIME_DAT_OD_TIM_P := (100, 0), SUM := -100, SUM_E := -50,
           TRANTYPE := "C", PR_PR := "r", AUT_MY_NAM := "A" }] 100 100 := by
    simp [calculate_daily_amounts, gapFill, addTx, dictUpdate, dictKeys,
      txDate, zeroTotals, bumpTotals, keyLE, List.insertionSort,
      List.orderedInsert, List.range_succ]
  have := (h _ hm).1
  norm_num at this

/-- C6 (amended): when every transaction's SUM and SUM_E are non-negative,
all four fields of every output record of calculate_daily_amounts are
non-negative.  (The unconditional claim fails because SUM is signed.) -/
theorem C6_nonneg_of_nonneg_amounts (txs : List Transaction) (s e d : Int)
    (tot : DailyTotals)
    (hpos : ∀ t ∈ txs, 0 ≤ t.SUM ∧ 0 ≤ t.SUM_E)
    (h : (d, tot) ∈ calculate_daily_amounts txs s e) :
    0 ≤ tot.money_in ∧ 0 ≤ tot.money_out ∧ 0 ≤ tot.money_in_UAH ∧
      0 ≤ tot.money_out_UAH := by
  rw [mem_calculate_totals h]
  exact ⟨sumIn_nonneg txs d (fun t ht => (hpos t ht).1),
    sumOut_nonneg txs d (fun t ht => (hpos t ht).1),
    sumInUAH_nonneg txs d (fun t ht => (hpos t ht).2),
    sumOutUAH_nonneg txs d (fun t ht => (hpos t ht).2)⟩

/-- Witness for C6_nonneg_of_nonneg_amounts at the spec's confirmed credit
of 100/2700 on day 100 over the one-day range [100, 100]. -/
theorem C6_nonneg_witness :
    0 ≤ (DailyTotals.mk 100 0 2700 0).money_in ∧
    0 ≤ (DailyTotals.mk 100 0 2700 0).money_out ∧
    0 ≤ (DailyTotals.mk 100 0 2700 0).money_in_UAH ∧
    0 ≤ (DailyTotals.mk 100 0 2700 0).money_out_UAH :=
  C6_nonneg_of_nonneg_amounts
    [{ DATE_TIME_DAT_OD_TIM_P := (100, 43200), SUM := 100, SUM_E := 2700,
       TRANTYPE := "C", PR_PR := "r", AUT_MY_NAM := "Acme" }] 100 100 100
    (DailyTotals.mk 100 0 2700 0)
    (by
      intro t ht
      rcases List.mem_singleton.mp ht with rfl
      exact ⟨by norm_num, by norm_num⟩)
    (by
      simp [calculate_daily_amounts, gapFill, addTx, dictUpdate, dictKeys,
        txDate, zeroTotals, bumpTotals, keyLE, List.insertionSort,
        List.orderedInsert, List.range_succ])

/-- C7: on an empty transaction list and an inclusive range of
(e - s + 1) days with e >= s, calculate_daily_amounts returns exactly one
zero-valued record per day of the range, in ascending date order. -/
theorem C7_empty_transactions (s e : Int) (h : s ≤ e) :
    calculate_daily_amounts [] s e
      = (rangeDays s (e - s + 1)).map (fun d => (d, zeroTotals))
    ∧ (calculate_daily_amounts [] s e).length = (e - s + 1).toNat := by
  have hfill : gapFill ([] : List (Int × DailyTotals)) s (e - s + 1)
      = (rangeDays s (e - s + 1)).map (fun d => (d, zeroTotals)) := by
    rw [gapFill_eq_fold, fillFold_eq _ (rangeDays_nodup _ _) _]
    simp [dictKeys]
  have hsorted : List.Sorted keyLE
      ((rangeDays s (e - s + 1)).map (fun d => (d, zeroTotals))) := by
    refine List.pairwise_map.mpr ?_
    exact (rangeDays_sorted s (e - s + 1)).imp (fun h => le_of_lt h)
  have hmain : calculate_daily_amounts [] s e
      = (rangeDays s (e - s + 1)).map (fun d => (d, zeroTotals)) := by
    rw [calculate_eq_sort, List.foldl_nil, hfill,
      List.Sorted.insertionSort_eq hsorted]
  refine ⟨hmain, ?_⟩
  rw [hmain, List.length_map, rangeDays_length]

/-- Witness for C7_empty_transactions over the three-day range
[100, 102]. -/
theorem C7_empty_transactions_witness :
    calculate_daily_amounts [] 100 102
      = (rangeDays 100 ((102 : Int) - 100 + 1)).map (fun d => (d, zeroTotals))
    ∧ (calculate_daily_amounts [] 100 102).length
      = ((102 : Int) - 100 + 1).toNat :=
  C7_empty_transactions 100 102 (by norm_num)

/-- C8: when end_date < start_date the day count is non-positive, Python's
range is empty and no nominal-range day is gap-filled, so the output's date
set is exactly the set of the transactions' own calendar days; and in
general, for any start and end, the output's date set is the union of the
transactions' days and the gap-filled nominal range. -/
theorem C8_key_union (txs : List Transaction) (s e : Int) (h : e < s) :
    ((calculate_daily_amounts txs s e).map Prod.fst).toFinset
        = (txs.map txDate).toFinset
    ∧ ∀ s' e' : Int,
        ((calculate_daily_amounts txs s' e').map Prod.fst).toFinset
          = (txs.map txDate).toFinset
            ∪ (rangeDays s' (e' - s' + 1)).toFinset := by
  have hgen : ∀ s' e' : Int,
      ((calculate_daily_amounts txs s' e').map Prod.fst).toFinset
        = (txs.map txDate).toFinset
          ∪ (rangeDays s' (e' - s' + 1)).toFinset := by
    intro s' e'
    ext x
    simp only [List.mem_toFinset, Finset.mem_union]
    rw [mem_keys_calculate]
    simp [List.mem_map]
  refine ⟨?_, hgen⟩
  rw [hgen s e, rangeDays_of_nonpos (by omega)]
  simp

/-- Witness for C8_key_union: one transaction on day 105, with the reversed
range start 200 > end 100: the output is keyed by the transaction's day
only. -/
theorem C8_key_union_witness :
    ((calculate_daily_amounts
        [{ DATE_TIME_DAT_OD_TIM_P := (105, 0), SUM := 7, SUM_E := 7,
           TRANTYPE := "C", PR_PR := "r", AUT_MY_NAM := "A" }] 200 100).map
        Prod.fst).toFinset
      = ([{ DATE_TIME_DAT_OD_TIM_P := ((105 : Int), (0 : ℕ)), SUM := 7,
            SUM_E := 7, TRANTYPE := "C", PR_PR := "r",
            AUT_MY_NAM := "A" }].map txDate).toFinset :=
  (C8_key_union _ 200 100 (by norm_num)).1

/-- C10: calculate_daily_amounts never reads the confirmation flag PR_PR:
rewriting the flag of every transaction arbitrarily (in particular to a
value different from the confirmed marker "r") leaves the output unchanged,
so unconfirmed transactions passed directly to the aggregator contribute
their amounts exactly like confirmed ones; filtering happens only in
get_transactions. -/
theorem C10_confirmation_not_consulted (txs : List Transaction) (s e : Int)
    (f : Transaction → String) :
    calculate_daily_amounts
        (txs.map (fun t =>
          { DATE_TIME_DAT_OD_TIM_P := t.DATE_TIME_DAT_OD_TIM_P, SUM := t.SUM,
            SUM_E := t.SUM_E, TRANTYPE := t.TRANTYPE, PR_PR := f t,
            AUT_MY_NAM := t.AUT_MY_NAM })) s e
      = calculate_daily_amounts txs s e := by
  rw [calculate_eq_sort, calculate_eq_sort, List.foldl_map]
  have hfun : (fun (m : List (Int × DailyTotals)) (t : Transaction) =>
      addTx m
        { DATE_TIME_DAT_OD_TIM_P := t.DATE_TIME_DAT_OD_TIM_P, SUM := t.SUM,
          SUM_E := t.SUM_E, TRANTYPE := t.TRANTYPE, PR_PR := f t,
          AUT_MY_NAM := t.AUT_MY_NAM }) = addTx := by
    funext m t
    rfl
  rw [hfun]

/-- C3: over a run of successful pages that announce a next page, closed by
a successful page with exist_next_page false (whatever the server would have
answered afterwards), get_transactions returns the concatenation, in
response order, of the pages' confirmed transactions, issuing exactly one
request per consumed page — in particular one request, and that page's
confirmed transactions, for a single successful final page. -/
theorem C3_pagination_concat (good : List PageResponse) (last : PageResponse)
    (junk : List PageResponse)
    (hgood : ∀ p ∈ good, p.status = "SUCCESS" ∧ p.exist_next_page = true)
    (hstat : last.status = "SUCCESS") (hnext : last.exist_next_page = false) :
    get_transactions (good ++ last :: junk)
      = (confirmedOf (good ++ [last]), good.length + 1,
         List.replicate (good.length + 1) LogEvent.info) :=
  get_transactions_success_run good last junk hgood hstat hnext

/-- Witness for C3_pagination_concat: a single successful page with two
confirmed transactions and one unconfirmed one, exist_next_page false:
exactly one request, returning the two confirmed transactions. -/
theorem C3_pagination_concat_witness :
    get_transactions
        [{ status := "SUCCESS",
           transactions :=
             [{ DATE_TIME_DAT_OD_TIM_P := (100, 43200), SUM := 100,
                SUM_E := 2700, TRANTYPE := "C", PR_PR := "r",
                AUT_MY_NAM := "Acme" },
              { DATE_TIME_DAT_OD_TIM_P := (100, 0), SUM := 5, SUM_E := 5,
                TRANTYPE := "C", PR_PR := "x", AUT_MY_NAM := "Acme" },
              { DATE_TIME_DAT_OD_TIM_P := (101, 43200), SUM := 200,
                SUM_E := 5400, TRANTYPE := "D", PR_PR := "r",
                AUT_MY_NAM := "Acme" }],
           exist_next_page := false, next_page_id := "" }]
      = ([{ DATE_TIME_DAT_OD_TIM_P := (100, 43200), SUM := 100,
            SUM_E := 2700, TRANTYPE := "C", PR_PR := "r",
            AUT_MY_NAM := "Acme" },
          { DATE_TIME_DAT_OD_TIM_P := (101, 43200), SUM := 200,
            SUM_E := 5400, TRANTYPE := "D", PR_PR := "r",
            AUT_MY_NAM := "Acme" }], 1, [LogEvent.info]) := by
  have h := C3_pagination_concat []
    { status := "SUCCESS",
      transactions :=
        [{ DATE_TIME_DAT_OD_TIM_P := (100, 43200), SUM := 100,
           SUM_E := 2700, TRANTYPE := "C", PR_PR := "r",
           AUT_MY_NAM := "Acme" },
         { DATE_TIME_DAT_OD_TIM_P := (100, 0), SUM := 5, SUM_E := 5,
           TRANTYPE := "C", PR_PR := "x", AUT_MY_NAM := "Acme" },
         { DATE_TIME_DAT_OD_TIM_P := (101, 43200), SUM := 200,
           SUM_E := 5400, TRANTYPE := "D", PR_PR := "r",
           AUT_MY_NAM := "Acme" }],
      exist_next_page := false, next_page_id := "" } []
    (by intro p hp; cases hp) rfl rfl
  simpa [confirmedOf] using h

/-- C4: when, after a run of successful next-page-announcing pages, the
server answers a page whose status is not "SUCCESS", get_transactions stops
there (no further request), logs an error after the per-page info logs, and
returns exactly the confirmed transactions accumulated from the earlier
successful pages; with no earlier page that is the empty list.  The
embedding is a total function: no exception is raised on this path. -/
theorem C4_nonsuccess_stops (good : List PageResponse) (bad : PageResponse)
    (junk : List PageResponse)
    (hgood : ∀ p ∈ good, p.status = "SUCCESS" ∧ p.exist_next_page = true)
    (hbad : ¬bad.status = "SUCCESS") :
    get_transactions (good ++ bad :: junk)
      = (confirmedOf good, good.length + 1,
         List.replicate good.length LogEvent.info ++ [LogEvent.error]) :=
  get_transactions_failure_run good bad junk hgood hbad

/-- Witness for C4_nonsuccess_stops: a first page with status "ERROR"
(carrying transactions that must not be returned): empty result, one
request, a single error log. -/
theorem C4_nonsuccess_stops_witness :
    get_transactions
        [{ status := "ERROR",
           transactions :=
             [{ DATE_TIME_DAT_OD_TIM_P := (100, 43200), SUM := 100,
                SUM_E := 2700, TRANTYPE := "C", PR_PR := "r",
                AUT_MY_NAM := "Acme" }],
           exist_next_page := true, next_page_id := "n1" }]
      = ([], 1, [LogEvent.error]) := by
  have h := C4_nonsuccess_stops []
    { status := "ERROR",
      transactions :=
        [{ DATE_TIME_DAT_OD_TIM_P := (100, 43200), SUM := 100,
           SUM_E := 2700, TRANTYPE := "C", PR_PR := "r",
           AUT_MY_NAM := "Acme" }],
      exist_next_page := true, next_page_id := "n1" } []
    (by intro p hp; cases hp) (by simp)
  simpa [confirmedOf] using h

/-- C5: in a successful pagination run, a transaction of a consumed page
whose PR_PR flag equals the confirmed marker "r" is returned by
get_transactions, and every transaction it returns has PR_PR = "r" — so
every transaction whose flag differs from "r" is excluded. -/
theorem C5_confirmation_filter (good : List PageResponse)
    (last : PageResponse) (junk : List PageResponse)
    (hgood : ∀ p ∈ good, p.status = "SUCCESS" ∧ p.exist_next_page = true)
    (hstat : last.status = "SUCCESS") (hnext : last.exist_next_page = false)
    (t : Transaction) (p : PageResponse) (hp : p ∈ good ++ [last])
    (ht : t ∈ p.transactions) (hr : t.PR_PR = "r") :
    t ∈ (get_transactions (good ++ last :: junk)).1 ∧
    ∀ u ∈ (get_transactions (good ++ last :: junk)).1, u.PR_PR = "r" := by
  constructor
  · rw [get_transactions_success_run good last junk hgood hstat hnext]
    exact mem_confirmedOf hp ht hr
  · exact get_transactions_loop_confirmed _ [] [] (fun u hu => absurd hu
      (List.not_mem_nil u))

/-- Witness for C5_confirmation_filter: the confirmed transaction of a
single successful page is returned, and everything returned is
confirmed. -/
theorem C5_confirmation_filter_witness :
    ({ DATE_TIME_DAT_OD_TIM_P := ((100 : Int), (43200 : ℕ)), SUM := 100,
       SUM_E := 2700, TRANTYPE := "C", PR_PR := "r",
       AUT_MY_NAM := "Acme" } : Transaction)
      ∈ (get_transactions
          [{ status := "SUCCESS",
             transactions :=
               [{ DATE_TIME_DAT_OD_TIM_P := (100, 43200), SUM := 100,
                  SUM_E := 2700, TRANTYPE := "C", PR_PR := "r",
                  AUT_MY_NAM := "Acme" },
                { DATE_TIME_DAT_OD_TIM_P := (100, 0), SUM := 5, SUM_E := 5,
                  TRANTYPE := "C", PR_PR := "x", AUT_MY_NAM := "Acme" }],
             exist_next_page := false, next_page_id := "" }]).1 ∧
    ∀ u ∈ (get_transactions
          [{ status := "SUCCESS",
             transactions :=
               [{ DATE_TIME_DAT_OD_TIM_P := (100, 43200), SUM := 100,
                  SUM_E := 2700, TRANTYPE := "C", PR_PR := "r",
                  AUT_MY_NAM := "Acme" },
                { DATE_TIME_DAT_OD_TIM_P := (100, 0), SUM := 5, SUM_E := 5,
                  TRANTYPE := "C", PR_PR := "x", AUT_MY_NAM := "Acme" }],
             exist_next_page := false, next_page_id := "" }]).1,
      u.PR_PR = "r" := by
  have h := C5_confirmation_filter []
    { status := "SUCCESS",
      transactions :=
        [{ DATE_TIME_DAT_OD_TIM_P := (100, 43200), SUM := 100,
           SUM_E := 2700, TRANTYPE := "C", PR_PR := "r",
           AUT_MY_NAM := "Acme" },
         { DATE_TIME_DAT_OD_TIM_P := (100, 0), SUM := 5, SUM_E := 5,
           TRANTYPE := "C", PR_PR := "x", AUT_MY_NAM := "Acme" }],
      exist_next_page := false, next_page_id := "" } []
    (by intro p hp; cases hp) rfl rfl
    { DATE_TIME_DAT_OD_TIM_P := (100, 43200), SUM := 100, SUM_E := 2700,
      TRANTYPE := "C", PR_PR := "r", AUT_MY_NAM := "Acme" }
    { status := "SUCCESS",
      transactions :=
        [{ DATE_TIME_DAT_OD_TIM_P := (100, 43200), SUM := 100,
           SUM_E := 2700, TRANTYPE := "C", PR_PR := "r",
           AUT_MY_NAM := "Acme" },
         { DATE_TIME_DAT_OD_TIM_P := (100, 0), SUM := 5, SUM_E := 5,
           TRANTYPE := "C", PR_PR := "x", AUT_MY_NAM := "Acme" }],
      exist_next_page := false, next_page_id := "" }
    (List.mem_singleton.mpr rfl) (by simp) rfl
  simpa using h

/-- C9: when the fetched transaction list of an account is empty,
generate_report logs a warning for it, writes no file for it, and goes on to
process the remaining accounts exactly as it would have without that
account. -/
theorem C9_skip_empty_account (fetch : String → List Transaction)
    (a : String) (rest : List String) (s e : Int) (format : String)
    (h : fetch a = []) :
    generate_report fetch (a :: rest) s e format
      = ((generate_report fetch rest s e format).1,
         LogEvent.info :: LogEvent.warning ::
           (generate_report fetch rest s e format).2) := by
  rw [generate_report, if_pos (by rw [h]; rfl)]

/-- Witness for C9_skip_empty_account: one account whose fetch yields no
transactions: no file is written and a warning is logged. -/
theorem C9_skip_empty_account_witness :
    generate_report (fun _ => []) ["UA1"] 100 102 "csv"
      = ((generate_report (fun _ => []) [] 100 102 "csv").1,
         LogEvent.info :: LogEvent.warning ::
           (generate_report (fun _ => []) [] 100 102 "csv").2) :=
  C9_skip_empty_account (fun _ => []) "UA1" [] 100 102 "csv" rfl
